import Mathlib

/-!
Shallow embedding of the fallback content-selection engine of
`drawsy-llm/app/services/ai_service.py` (class `AIService`), together with
proofs about it.

Modelling conventions:
* Python strings are Lean `String`; `len` is `String.length` (both count
  codepoints).  `str.lower()` is `String.toLower` (ASCII case folding; every
  string relevant to the properties below is ASCII apart from the mojibake
  characters in one template, which neither function changes in a way that
  matters here).
* The shared random source (`random.choice`, `random.sample`) is modelled by
  an explicit stream `rnd : Nat → Nat` of draws; draw `k` picks index
  `rnd k % n` among the `n` current candidates.  `random.sample(l, n)` is
  modelled as `n` successive removals of a drawn element.
* The `while` loop in `generate_multiple_words` is modelled with explicit
  fuel; `SampleOutcome.outOfFuel` means the loop is still running after the
  given number of iterations, `SampleOutcome.indexError` models the
  `IndexError` that `random.choice` raises on an empty sequence.
* For the frame/immutability claim the mutating part is additionally given a
  store-passing semantics (`Store`, `cycleLoopHeap`) in which Python list
  objects live in heap cells, `list.copy()` allocates a fresh cell and
  `list.remove` writes to a cell, so that "the word bank is not mutated" is a
  real statement about the final store.
-/

namespace Drawsy

/-! ### Generic list helpers -/

/-- Boolean test: does the first character list occur at the head of the
second one. -/
def headMatch : List Char → List Char → Bool
  | [], _ => true
  | _ :: _, [] => false
  | a :: as, b :: bs => a == b && headMatch as bs

/-- Boolean test: does `needle` occur as a contiguous run inside `hay`
(the Python expression `needle in hay` on strings). -/
def isSubstring (needle : List Char) : List Char → Bool
  | [] => needle.isEmpty
  | b :: bs => headMatch needle (b :: bs) || isSubstring needle bs

/-- Python `needle in hay` on strings. -/
def strContainsB (hay needle : String) : Bool :=
  isSubstring needle.toList hay.toList

/-- Python `s.lower()` as a character list (ASCII case folding, like
`Char.toLower`). -/
def lowerList (s : String) : List Char :=
  s.toList.map Char.toLower

/-- Case-insensitive substring test, `needle.lower() in hay.lower()`. -/
def containsCI (hay needle : String) : Bool :=
  isSubstring (lowerList needle) (lowerList hay)

/-- Python `random.choice(l)` given a draw `r`, for non-empty `l`. -/
def randomChoice (r : Nat) (l : List String) : String :=
  l.getD (r % l.length) ""

/-! ### Configuration data, from `AIService.__init__` -/

/-- Word list of topic Animals, from `self.word_bank` in the source. -/
def animalsWords : List String :=
  ["cat", "dog", "fish", "bird", "cow", "pig", "horse", "sheep",
   "elephant", "giraffe", "lion", "tiger", "bear", "rabbit", "mouse",
   "frog", "snake", "turtle", "duck", "chicken", "butterfly", "bee"]

/-- Word list of topic Food. -/
def foodWords : List String :=
  ["pizza", "burger", "apple", "banana", "cake", "bread", "egg",
   "cheese", "carrot", "tomato", "cookie", "donut", "hotdog", "taco",
   "sandwich", "ice cream", "cherry", "orange", "grapes", "corn"]

/-- Word list of topic Objects (the fallback topic). -/
def objectsWords : List String :=
  ["car", "house", "book", "chair", "table", "phone", "cup", "key",
   "clock", "lamp", "door", "window", "bed", "hat", "shoe", "bag",
   "pen", "pencil", "camera", "guitar", "ball", "box"]

/-- Word list of topic Nature. -/
def natureWords : List String :=
  ["tree", "flower", "sun", "moon", "star", "cloud", "rain", "snow",
   "mountain", "river", "ocean", "beach", "grass", "leaf", "rock",
   "fire", "wind", "rainbow", "lightning", "volcano", "island", "forest"]

/-- Word list of topic Sports. -/
def sportsWords : List String :=
  ["ball", "bat", "goal", "net", "bike", "skate", "swim", "run",
   "jump", "kick", "throw", "catch", "race", "team", "win", "play",
   "court", "field", "pool", "track", "gym", "medal"]

/-- Word list of topic Transportation. -/
def transportationWords : List String :=
  ["car", "bus", "train", "plane", "boat", "bike", "truck", "taxi",
   "ship", "rocket", "helicopter", "subway", "scooter", "van", "jeep",
   "ferry", "yacht", "balloon", "sled", "cart", "wagon", "motor"]

/-- Word list of topic Professions. -/
def professionsWords : List String :=
  ["doctor", "teacher", "chef", "police", "nurse", "farmer", "pilot",
   "artist", "singer", "dancer", "writer", "driver", "builder", "baker",
   "barber", "judge", "lawyer", "soldier", "sailor", "actor", "coach", "guide"]

/-- Word list of topic Entertainment. -/
def entertainmentWords : List String :=
  ["movie", "music", "dance", "game", "toy", "party", "show", "play",
   "song", "joke", "magic", "circus", "puppet", "mask", "costume", "stage",
   "screen", "ticket", "popcorn", "candy", "balloon", "gift"]

/-- `self.word_bank`: insertion-ordered mapping from topic to word list. -/
def word_bank : List (String × List String) :=
  [("Animals", animalsWords), ("Food", foodWords), ("Objects", objectsWords),
   ("Nature", natureWords), ("Sports", sportsWords),
   ("Transportation", transportationWords),
   ("Professions", professionsWords), ("Entertainment", entertainmentWords)]

/-- Dictionary lookup `self.word_bank[t]` as an `Option`; `isSome` models the
Python test `t in self.word_bank`. -/
def bankLookup (t : String) : Option (List String) :=
  Option.map Prod.snd (word_bank.find? (fun p => p.1 == t))

/-- `self.funny_responses`: the ten fallback templates.  The sixth template
reproduces the exact (mojibake) characters present in the source file. -/
def funny_responses : List String :=
  ["Close! But not quite there yet!",
   "Nice try! Keep those creative juices flowing!",
   "Ooh, interesting guess! But let\x27s try again!",
   "You\x27re thinking outside the box! I like it!",
   "Hmm, that\x27s a unique perspective!",
   "Getting warmer... or maybe colder? ðŸ¤”",
   "I see where you\x27re going with that!",
   "Creative thinking! But let\x27s aim a bit differently!",
   "That would make for an interesting drawing too!",
   "Points for creativity! Now let\x27s get the right answer!"]

/-! ### Funny-guess composer: fallback path of `generate_funny_response` -/

/-- Suffix appended when `len(guess) > 10` (from the f-string on line 94). -/
def longGuessSuffix : String := " That\x27s quite a long word you\x27re thinking of!"

/-- Suffix appended when `len(guess) == 1` (line 96). -/
def oneLetterSuffix : String := " Just one letter? Let\x27s think bigger!"

/-- Suffix appended when the lowercased guess is a substring of the
lowercased correct word (line 98). -/
def overlapSuffix : String := " You\x27ve got some letters right!"

/-- `base_response = random.choice(self.funny_responses)` for draw `r`. -/
def baseTemplate (r : Nat) : String :=
  funny_responses.getD (r % funny_responses.length) ""

/-- The augmentation of lines 92-100 applied to a drawn base template: first
matching rule only (long guess, then one-letter guess, then case-insensitive
substring overlap, else the unmodified base). -/
def composeFunny (base guess correct : String) : String :=
  if 10 < guess.length then base ++ longGuessSuffix
  else if guess.length == 1 then base ++ oneLetterSuffix
  else if isSubstring (lowerList guess) (lowerList correct) then
    base ++ overlapSuffix
  else base

/-- Fallback path of `generate_funny_response` (lines 90-100), taking the
template list as a parameter (it is `self.funny_responses` at the call). -/
def fallbackFunnyFrom (templates : List String) (r : Nat)
    (guess correct : String) : String :=
  composeFunny (templates.getD (r % templates.length) "") guess correct

/-- Fallback path of `generate_funny_response` on the configured templates. -/
def fallbackFunnyResponse (r : Nat) (guess correct : String) : String :=
  fallbackFunnyFrom funny_responses r guess correct

/-- All strings the fallback path of `generate_funny_response` can return:
each template alone or followed by exactly one of the three fixed suffixes. -/
def fallbackFunnyOutcomes : List String :=
  funny_responses.flatMap
    (fun b => [b, b ++ longGuessSuffix, b ++ oneLetterSuffix, b ++ overlapSuffix])

/-! ### Context classifier and mood-response selector
(`_get_fallback_suggestion`, lines 191-231) -/

/-- Keyword set for the drawing context (line 216). -/
def drawingKeywords : List String := ["draw", "drawing", "sketch", "line", "shape"]

/-- Keyword set for the guessing context (line 218). -/
def guessingKeywords : List String := ["guess", "think", "looks like", "is it", "what is"]

/-- Boolean test of lines 216 and 218: `any(word in message_lower for word
in kws)` against the lower-cased message. -/
def anyKeywordIn (kws : List String) (message : String) : Bool :=
  kws.any (fun w => isSubstring w.toList (lowerList message))

/-- Context determination from the message (lines 214-219): lower-case the
message, drawing keywords first, then guessing keywords, else general. -/
def classify (message : String) : String :=
  if anyKeywordIn drawingKeywords message then "drawing_progress"
  else if anyKeywordIn guessingKeywords message then "guessing"
  else "general"

/-- The `encouraging_responses` dict (lines 196-200). -/
def encouragingResponses : List (String × List String) :=
  [("drawing_progress",
    ["Keep up the amazing drawing!", "You\x27re doing great!", "Nice work so far!"]),
   ("guessing", ["Great guess!", "Keep trying!", "You\x27re on the right track!"]),
   ("general", ["Looking good!", "Great effort!", "Keep it up!"])]

/-- The `curious_responses` dict (lines 202-206). -/
def curiousResponses : List (String × List String) :=
  [("drawing_progress",
    ["Interesting shape!", "What could that be?", "I wonder what you\x27re creating?"]),
   ("guessing", ["Hmm, what is it?", "That\x27s intriguing!", "Curious to see more!"]),
   ("general", ["What\x27s happening here?", "This looks interesting!", "Tell me more!"])]

/-- The `playful_responses` dict (lines 208-212). -/
def playfulResponses : List (String × List String) :=
  [("drawing_progress",
    ["Ooh, mystery drawing!", "Plot twist incoming!", "This is getting exciting!"]),
   ("guessing", ["The suspense is real!", "Fun guessing game!", "What a puzzle!"]),
   ("general", ["Fun times ahead!", "This is awesome!", "Love the energy!"])]

/-- Python dict indexing `table[context]` on the response dicts; the key is
always one of the three context values, so the empty default is unreachable
from `classify`. -/
def tableLookup (t : List (String × List String)) (k : String) : List String :=
  (Option.map Prod.snd (t.find? (fun p => p.1 == k))).getD []

/-- The per-mood response table selected by the if-chain on lines 222-229;
for an unrecognized mood the code does not consult any table keyed by the
context (it hard-codes `encouraging_responses['general']`), so this function
is only used for recognized moods in the statements below. -/
def moodTable (mood : String) : List (String × List String) :=
  if mood == "encouraging" then encouragingResponses
  else if mood == "curious" then curiousResponses
  else if mood == "playful" then playfulResponses
  else []

/-- `_get_fallback_suggestion(message, mood)` with draw `r` for its single
`random.choice` call. -/
def fallbackSuggestion (r : Nat) (message mood : String) : String :=
  let context := classify message
  let responses :=
    if mood == "encouraging" then tableLookup encouragingResponses context
    else if mood == "curious" then tableLookup curiousResponses context
    else if mood == "playful" then tableLookup playfulResponses context
    else tableLookup encouragingResponses "general"
  randomChoice r responses

/-- The recognized moods of the if-chain on lines 222-227. -/
def recognizedMoods : List String := ["encouraging", "curious", "playful"]

/-- The fallback loop of `generate_chat_suggestion` (lines 186-187): one
`_get_fallback_suggestion` call per mood, in order; call number `k` consumes
draw `rnd k`. -/
def chatFallbackLoop (rnd : Nat → Nat) (message : String) :
    Nat → List String → List String
  | _, [] => []
  | k, mood :: rest =>
    fallbackSuggestion (rnd k) message mood :: chatFallbackLoop rnd message (k + 1) rest

/-- Fallback path of `generate_chat_suggestion` (lines 185-189):
`for mood in moods[:count]: suggestions.append(self._get_fallback_suggestion(message, mood))`. -/
def generateChatSuggestionFallback (rnd : Nat → Nat) (message : String)
    (count : Nat) (moods : List String) : List String :=
  chatFallbackLoop rnd message 0 (moods.take count)

/-! ### Exact-count sampler: fallback path of `generate_multiple_words`
(lines 139-160) -/

/-- Result of the sampler in the fuel model: `ok` is a normal return,
`indexError` models `random.choice` raising on an empty sequence, and
`outOfFuel` means the `while` loop had not finished within the given number
of iterations. -/
inductive SampleOutcome where
  | ok (words : List String)
  | indexError
  | outOfFuel
deriving DecidableEq

/-- Discriminator: did the run end in a raised exception. -/
def SampleOutcome.raised : SampleOutcome → Bool
  | SampleOutcome.indexError => true
  | _ => false

/-- Discriminator: did the run return normally. -/
def SampleOutcome.returnsValue : SampleOutcome → Bool
  | SampleOutcome.ok _ => true
  | _ => false

/-- `random.sample(l, n)` modelled as `n` successive draws without
replacement: draw `k` removes the element at index `rnd k % len` of the
remaining candidates.  Only invoked by the code when `n ≤ l.length`. -/
def randomSample (rnd : Nat → Nat) : Nat → Nat → List String → List String
  | _, 0, _ => []
  | _, _ + 1, [] => []
  | k, n + 1, a :: as =>
    let i := rnd k % (a :: as).length
    (a :: as).getD i "" :: randomSample rnd (k + 1) n ((a :: as).eraseIdx i)

/-- The `while len(result) < count` loop of lines 151-160, with fuel.  One
fuel unit is one loop iteration: reset the working pool from `words` when it
is empty, draw a word (`random.choice`), remove its first occurrence from the
working pool (`list.remove`), and append it to `result` only if not already
present. -/
def cycleLoop (rnd : Nat → Nat) (words : List String) (count : Nat) :
    Nat → Nat → List String → List String → SampleOutcome
  | 0, _, _, _ => SampleOutcome.outOfFuel
  | fuel + 1, k, result, available =>
    if count ≤ result.length then SampleOutcome.ok (result.take count)
    else
      match if available.isEmpty then words else available with
      | [] => SampleOutcome.indexError
      | a :: as =>
        let i := rnd k % (a :: as).length
        let w := (a :: as).getD i ""
        cycleLoop rnd words count fuel (k + 1)
          (if w ∈ result then result else result ++ [w]) ((a :: as).erase w)

/-- Lines 146-160 applied to an already-resolved pool `words`: take
`random.sample` when the pool is large enough, otherwise run the cycling
loop starting from `result = []` and `available_words = words.copy()`. -/
def sampleFromPool (rnd : Nat → Nat) (words : List String)
    (count fuel : Nat) : SampleOutcome :=
  if count ≤ words.length then
    SampleOutcome.ok (randomSample rnd 0 count words)
  else cycleLoop rnd words count fuel 0 [] words

/-- Pool resolution of lines 140-144: `self.word_bank[topic]` when the topic
is a key, else `self.word_bank.get("Objects", [])`. -/
def resolvePool (topic : String) : List String :=
  match bankLookup topic with
  | some ws => ws
  | none => (bankLookup "Objects").getD []

/-- Fallback path of `generate_multiple_words(topic, count)` (lines 139-160)
in the fuel model. -/
def generateMultipleWordsFallback (rnd : Nat → Nat) (topic : String)
    (count fuel : Nat) : SampleOutcome :=
  sampleFromPool rnd (resolvePool topic) count fuel

/-- The else-branch of `generate_word_suggestion` (lines 117-119): a
uniformly random bank key (draw `r1`), then a random word from that topic
(draw `r2`). -/
def pickRandomTopicWord (r1 r2 : Nat) : String × String :=
  let keys := word_bank.map Prod.fst
  let sel := keys.getD (r1 % keys.length) ""
  (sel, randomChoice r2 ((bankLookup sel).getD []))

/-- Fallback path of `generate_word_suggestion` (lines 113-126), dispatching
on whether a truthy topic was supplied and is a bank key. -/
def generateWordSuggestionFallback (r1 r2 : Nat) (topic : Option String) :
    String × String :=
  match topic with
  | some t =>
    match bankLookup t with
    | some ws => (t, randomChoice r2 ws)
    | none => pickRandomTopicWord r1 r2
  | none => pickRandomTopicWord r1 r2

/-! ### Store-passing semantics for the frame claim

Python list objects live in heap cells; `list.copy()` allocates a fresh
cell, `list.remove` writes to a cell.  The configured word-bank pool passed
to `generate_multiple_words` lives at `bankRef`; the loop of lines 151-160
only ever writes to the cell freshly allocated for `available_words`, so
every pre-existing cell (word bank lists, funny templates, response tables)
is left unchanged. -/

structure Store where
  cells : List (List String)

/-- Read the list object at cell `r`. -/
def Store.get (σ : Store) (r : Nat) : List String := σ.cells.getD r []

/-- Overwrite the list object at cell `r` (a Python in-place mutation such
as `list.remove`). -/
def Store.set (σ : Store) (r : Nat) (v : List String) : Store :=
  Store.mk (σ.cells.set r v)

/-- Allocate a fresh list object (`list.copy()`), returning the new store
and the new cell index. -/
def Store.alloc (σ : Store) (v : List String) : Store × Nat :=
  (Store.mk (σ.cells ++ [v]), σ.cells.length)

/-- Store-passing version of the `while` loop of lines 151-160.  The pool
reset `available_words = words.copy()` reads the current bank cell and
allocates a fresh cell; `available_words.remove(word)` writes only to the
working cell `availRef`. -/
def cycleLoopHeap (rnd : Nat → Nat) (bankRef count : Nat) :
    Nat → Nat → List String → Nat → Store → SampleOutcome × Store
  | 0, _, _, _, σ => (SampleOutcome.outOfFuel, σ)
  | fuel + 1, k, result, availRef, σ =>
    if count ≤ result.length then (SampleOutcome.ok (result.take count), σ)
    else
      let σ1 := if (σ.get availRef).isEmpty then
        (σ.alloc (σ.get bankRef)).1 else σ
      let availRef1 := if (σ.get availRef).isEmpty then
        (σ.alloc (σ.get bankRef)).2 else availRef
      match σ1.get availRef1 with
      | [] => (SampleOutcome.indexError, σ1)
      | a :: as =>
        let w := (a :: as).getD (rnd k % (a :: as).length) ""
        cycleLoopHeap rnd bankRef count fuel (k + 1)
          (if w ∈ result then result else result ++ [w]) availRef1
          (σ1.set availRef1 ((a :: as).erase w))

/-- Store-passing version of lines 146-160: the `random.sample` branch
performs no mutation at all; the cycling branch first copies the pool into
a fresh cell. -/
def sampleFromPoolHeap (rnd : Nat → Nat) (bankRef count fuel : Nat)
    (σ : Store) : SampleOutcome × Store :=
  if count ≤ (σ.get bankRef).length then
    (SampleOutcome.ok (randomSample rnd 0 count (σ.get bankRef)), σ)
  else
    cycleLoopHeap rnd bankRef count fuel 0 []
      (σ.alloc (σ.get bankRef)).2 (σ.alloc (σ.get bankRef)).1

/-- Store-passing fallback of `generate_funny_response`: it only reads the
template cell. -/
def generateFunnyFallbackHeap (r : Nat) (guess correct : String)
    (funnyRef : Nat) (σ : Store) : String × Store :=
  (fallbackFunnyFrom (σ.get funnyRef) r guess correct, σ)

/-- Store-passing fallback of `generate_word_suggestion`: no mutation. -/
def generateWordSuggestionHeap (r1 r2 : Nat) (topic : Option String)
    (σ : Store) : (String × String) × Store :=
  (generateWordSuggestionFallback r1 r2 topic, σ)

/-- Store-passing fallback of `generate_chat_suggestion`: the response
tables are rebuilt locally on every call and nothing is written. -/
def generateChatSuggestionHeap (rnd : Nat → Nat) (message : String)
    (count : Nat) (moods : List String) (σ : Store) :
    List String × Store :=
  (generateChatSuggestionFallback rnd message count moods, σ)

/-! ### List helper lemmas -/

theorem getD_mem_of_lt {α : Type} (l : List α) (i : Nat) (d : α)
    (h : i < l.length) : l.getD i d ∈ l := by
  induction l generalizing i with
  | nil => simp at h
  | cons a as ih =>
    cases i with
    | zero => simp
    | succ n =>
      rw [List.getD_cons_succ]
      exact List.mem_cons_of_mem _ (ih n (by simpa using h))

theorem randomChoice_mem (r : Nat) (l : List String) (h : 0 < l.length) :
    randomChoice r l ∈ l :=
  getD_mem_of_lt l (r % l.length) "" (Nat.mod_lt _ h)

theorem length_eraseIdx_succ {α : Type} :
    ∀ (l : List α) (i : Nat), i < l.length → (l.eraseIdx i).length + 1 = l.length := by
  intro l
  induction l with
  | nil => intro i h; simp at h
  | cons a as ih =>
    intro i h
    cases i with
    | zero => simp
    | succ n => simpa using ih n (by simpa using h)

theorem mem_of_mem_eraseIdx {α : Type} :
    ∀ (l : List α) (i : Nat) (x : α), x ∈ l.eraseIdx i → x ∈ l := by
  intro l
  induction l with
  | nil => intro i x h; simp [List.eraseIdx] at h
  | cons a as ih =>
    intro i x h
    cases i with
    | zero =>
      simp only [List.eraseIdx_cons_zero] at h
      exact List.mem_cons_of_mem _ h
    | succ n =>
      simp only [List.eraseIdx_cons_succ, List.mem_cons] at h
      rcases h with h | h
      · simp [h]
      · exact List.mem_cons_of_mem _ (ih n x h)

theorem nodup_eraseIdx {α : Type} :
    ∀ (l : List α) (i : Nat), l.Nodup → (l.eraseIdx i).Nodup := by
  intro l
  induction l with
  | nil => intro i _; simp [List.eraseIdx]
  | cons a as ih =>
    intro i h
    rw [List.nodup_cons] at h
    cases i with
    | zero => simpa using h.2
    | succ n =>
      rw [List.eraseIdx_cons_succ, List.nodup_cons]
      exact ⟨fun hmem => h.1 (mem_of_mem_eraseIdx as n a hmem), ih n h.2⟩

theorem getD_not_mem_eraseIdx {α : Type} :
    ∀ (l : List α) (i : Nat) (d : α), i < l.length → l.Nodup →
      l.getD i d ∉ l.eraseIdx i := by
  intro l
  induction l with
  | nil => intro i d h; simp at h
  | cons a as ih =>
    intro i d hlt hnd
    rw [List.nodup_cons] at hnd
    cases i with
    | zero => simpa using hnd.1
    | succ n =>
      rw [List.getD_cons_succ, List.eraseIdx_cons_succ]
      intro hmem
      rcases List.mem_cons.mp hmem with heq | hmem2
      · exact hnd.1 (heq ▸ getD_mem_of_lt as n d (by simpa using hlt))
      · exact ih n d (by simpa using hlt) hnd.2 hmem2

theorem take_set_of_le {α : Type} :
    ∀ (l : List α) (j : Nat) (v : α) (N : Nat), N ≤ j →
      (l.set j v).take N = l.take N := by
  intro l
  induction l with
  | nil => intro j v N _; simp
  | cons a as ih =>
    intro j v N hN
    cases j with
    | zero =>
      have : N = 0 := Nat.le_zero.mp hN
      simp [this]
    | succ m =>
      cases N with
      | zero => simp
      | succ n =>
        simp only [List.set_cons_succ, List.take_succ_cons]
        rw [ih m v n (Nat.le_of_succ_le_succ hN)]

theorem nodup_length_le (l L : List String) (h : l.Nodup)
    (hs : ∀ x ∈ l, x ∈ L) : l.length ≤ L.length := by
  have h1 : l.toFinset.card = l.length := List.toFinset_card_of_nodup h
  have h2 : l.toFinset ⊆ L.toFinset := by
    intro x hx
    rw [List.mem_toFinset] at hx ⊢
    exact hs x hx
  have h3 : L.toFinset.card ≤ L.length := L.toFinset_card_le
  have h4 := Finset.card_le_card h2
  omega

/-! ### Properties of the random.sample model -/

theorem randomSample_length (rnd : Nat → Nat) :
    ∀ (n k : Nat) (l : List String), n ≤ l.length →
      (randomSample rnd k n l).length = n := by
  intro n
  induction n with
  | zero => intro k l _; simp [randomSample]
  | succ m ih =>
    intro k l h
    match l with
    | [] => simp at h
    | a :: as =>
      have hi : rnd k % (as.length + 1) < as.length + 1 :=
        Nat.mod_lt _ (Nat.succ_pos _)
      have herase := length_eraseIdx_succ (a :: as) (rnd k % (as.length + 1))
        (by simpa using hi)
      simp only [List.length_cons] at herase
      have hle : m ≤ ((a :: as).eraseIdx (rnd k % (as.length + 1))).length := by
        have hh : m + 1 ≤ as.length + 1 := by simpa using h
        omega
      simp only [randomSample, List.length_cons]
      rw [ih (k + 1) _ hle]

theorem randomSample_subset (rnd : Nat → Nat) :
    ∀ (n k : Nat) (l : List String), ∀ w ∈ randomSample rnd k n l, w ∈ l := by
  intro n
  induction n with
  | zero => intro k l w h; simp [randomSample] at h
  | succ m ih =>
    intro k l w h
    match l with
    | [] => simp [randomSample] at h
    | a :: as =>
      simp only [randomSample, List.mem_cons] at h
      rcases h with h | h
      · exact h ▸ getD_mem_of_lt _ _ _ (Nat.mod_lt _ (by simp))
      · exact mem_of_mem_eraseIdx _ _ _ (ih (k + 1) _ w h)

theorem randomSample_nodup (rnd : Nat → Nat) :
    ∀ (n k : Nat) (l : List String), l.Nodup →
      (randomSample rnd k n l).Nodup := by
  intro n
  induction n with
  | zero => intro k l _; simp [randomSample]
  | succ m ih =>
    intro k l hnd
    match l with
    | [] => simp [randomSample]
    | a :: as =>
      have hi : rnd k % (a :: as).length < (a :: as).length :=
        Nat.mod_lt _ (by simp)
      simp only [randomSample, List.nodup_cons]
      refine ⟨fun hmem => ?_, ih (k + 1) _ (nodup_eraseIdx _ _ hnd)⟩
      exact getD_not_mem_eraseIdx (a :: as) _ "" hi hnd
        (randomSample_subset rnd m (k + 1) _ _ hmem)

/-! ### Facts about the configured word bank -/

theorem word_bank_wellformed :
    ∀ p ∈ word_bank, (Prod.snd p).Nodup ∧ 0 < (Prod.snd p).length := by decide

theorem bankLookup_pair {t : String} {ws : List String}
    (h : bankLookup t = some ws) : ∃ p ∈ word_bank, Prod.snd p = ws := by
  unfold bankLookup at h
  rcases Option.map_eq_some'.mp h with ⟨p, hfind, hsnd⟩
  exact ⟨p, List.mem_of_find?_eq_some hfind, hsnd⟩

theorem bankLookup_nodup {t : String} {ws : List String}
    (h : bankLookup t = some ws) : ws.Nodup := by
  rcases bankLookup_pair h with ⟨p, hp, hsnd⟩
  exact hsnd ▸ (word_bank_wellformed p hp).1

theorem bankLookup_pos {t : String} {ws : List String}
    (h : bankLookup t = some ws) : 0 < ws.length := by
  rcases bankLookup_pair h with ⟨p, hp, hsnd⟩
  exact hsnd ▸ (word_bank_wellformed p hp).2

theorem resolvePool_pos (topic : String) : 0 < (resolvePool topic).length := by
  unfold resolvePool
  cases h : bankLookup topic with
  | some ws => exact bankLookup_pos h
  | none => decide

/-! ### Facts about the classifier and mood selection -/

theorem classify_cases (m : String) :
    classify m = "drawing_progress" ∨ classify m = "guessing" ∨
      classify m = "general" := by
  unfold classify
  split
  · exact Or.inl rfl
  · split
    · exact Or.inr (Or.inl rfl)
    · exact Or.inr (Or.inr rfl)

theorem moodTable_entry_pos :
    ∀ mood ∈ recognizedMoods,
      ∀ c ∈ ["drawing_progress", "guessing", "general"],
        0 < (tableLookup (moodTable mood) c).length := by decide

theorem fallbackSuggestion_recognized (r : Nat) (m : String) :
    ∀ mood ∈ recognizedMoods,
      fallbackSuggestion r m mood
        = randomChoice r (tableLookup (moodTable mood) (classify m)) := by
  intro mood hm
  simp only [recognizedMoods, List.mem_cons, List.not_mem_nil, or_false] at hm
  rcases hm with rfl | rfl | rfl <;> rfl

theorem fallbackSuggestion_mem_table (r : Nat) (m : String) :
    ∀ mood ∈ recognizedMoods,
      fallbackSuggestion r m mood
        ∈ tableLookup (moodTable mood) (classify m) := by
  intro mood hm
  rw [fallbackSuggestion_recognized r m mood hm]
  refine randomChoice_mem r _ (moodTable_entry_pos mood hm (classify m) ?_)
  rcases classify_cases m with h | h | h <;> simp [h]

theorem chatLoop_length (rnd : Nat → Nat) (message : String) :
    ∀ (ms : List String) (k : Nat),
      (chatFallbackLoop rnd message k ms).length = ms.length := by
  intro ms
  induction ms with
  | nil => intro k; rfl
  | cons mood rest ih =>
    intro k
    simp only [chatFallbackLoop, List.length_cons, ih (k + 1)]

theorem chatLoop_getD_mem (rnd : Nat → Nat) (message : String) :
    ∀ (ms : List String) (k : Nat), (∀ m ∈ ms, m ∈ recognizedMoods) →
      ∀ j, j < ms.length →
        (chatFallbackLoop rnd message k ms).getD j ""
          ∈ tableLookup (moodTable (ms.getD j "")) (classify message) := by
  intro ms
  induction ms with
  | nil => intro k _ j hj; simp at hj
  | cons mood rest ih =>
    intro k hms j hj
    cases j with
    | zero =>
      simp only [chatFallbackLoop, List.getD_cons_zero]
      exact fallbackSuggestion_mem_table (rnd k) message mood
        (hms mood (List.mem_cons_self _ _))
    | succ n =>
      simp only [chatFallbackLoop, List.getD_cons_succ]
      exact ih (k + 1) (fun m hm => hms m (List.mem_cons_of_mem _ hm)) n
        (by simpa using hj)

/-! ### Behaviour of the cycling loop -/

theorem refill_ne_nil (words available : List String) (hw : 0 < words.length) :
    (if available.isEmpty then words else available) ≠ [] := by
  by_cases he : available.isEmpty = true
  · rw [if_pos he]
    intro hnil
    rw [hnil] at hw
    simp at hw
  · rw [if_neg he]
    intro hnil
    rw [hnil] at he
    simp at he

theorem refill_subset (words available : List String)
    (hav : ∀ w ∈ available, w ∈ words) :
    ∀ w ∈ (if available.isEmpty then words else available), w ∈ words := by
  split
  · exact fun w hw => hw
  · exact hav

/-- Key invariant of the `while` loop of lines 153-159: since a word is
appended to `result` only when it is not already there, `result` stays
duplicate-free and inside `words`; once `count` exceeds the pool size the
loop guard can therefore never become false, and the loop never finishes
(for a non-empty pool it never raises either, so it runs forever). -/
theorem cycleLoop_stuck (rnd : Nat → Nat) (words : List String) (count : Nat)
    (hw : 0 < words.length) (hcount : words.length < count) :
    ∀ (fuel k : Nat) (result available : List String), result.Nodup →
      (∀ w ∈ result, w ∈ words) → (∀ w ∈ available, w ∈ words) →
      cycleLoop rnd words count fuel k result available
        = SampleOutcome.outOfFuel := by
  intro fuel
  induction fuel with
  | zero => intro k result available _ _ _; rfl
  | succ f ih =>
    intro k result available hnd hres hav
    have hlen : result.length < count :=
      lt_of_le_of_lt (nodup_length_le result words hnd hres) hcount
    simp only [cycleLoop]
    rw [if_neg (Nat.not_le.mpr hlen)]
    rcases List.exists_cons_of_ne_nil (refill_ne_nil words available hw)
      with ⟨a, as, hcons⟩
    have hsub : ∀ x ∈ a :: as, x ∈ words := by
      rw [← hcons]
      exact refill_subset words available hav
    rw [hcons]
    have hw_mem : (a :: as).getD (rnd k % (a :: as).length) "" ∈ a :: as :=
      getD_mem_of_lt _ _ _ (Nat.mod_lt _ (by simp))
    refine ih (k + 1) _ _ ?_ ?_ ?_
    · by_cases hmem : (a :: as).getD (rnd k % (a :: as).length) "" ∈ result
      · rw [if_pos hmem]; exact hnd
      · rw [if_neg hmem]
        simp only [List.nodup_append, hnd, true_and]
        refine ⟨List.nodup_singleton _, ?_⟩
        intro x hx hx1
        have : x = (a :: as).getD (rnd k % (a :: as).length) "" := by
          simpa using hx1
        exact hmem (this ▸ hx)
    · intro x hx
      by_cases hmem : (a :: as).getD (rnd k % (a :: as).length) "" ∈ result
      · rw [if_pos hmem] at hx; exact hres x hx
      · rw [if_neg hmem] at hx
        rcases List.mem_append.mp hx with hx | hx
        · exact hres x hx
        · have : x = (a :: as).getD (rnd k % (a :: as).length) "" := by
            simpa using hx
          exact this ▸ hsub _ hw_mem
    · intro x hx
      exact hsub x (List.mem_of_mem_erase hx)

/-- For a non-empty pool the cycling loop never reaches `random.choice` on
an empty sequence, so it never raises. -/
theorem cycleLoop_no_raise (rnd : Nat → Nat) (words : List String)
    (count : Nat) (hw : 0 < words.length) :
    ∀ (fuel k : Nat) (result available : List String),
      (cycleLoop rnd words count fuel k result available).raised = false := by
  intro fuel
  induction fuel with
  | zero => intro k result available; rfl
  | succ f ih =>
    intro k result available
    simp only [cycleLoop]
    by_cases hg : count ≤ result.length
    · rw [if_pos hg]; rfl
    · rw [if_neg hg]
      rcases List.exists_cons_of_ne_nil (refill_ne_nil words available hw)
        with ⟨a, as, hcons⟩
      rw [hcons]
      exact ih (k + 1) _ _

/-- The store-passing cycling loop writes only to the working cell (and to
freshly allocated cells), so every cell below `N` is untouched whenever the
working cell index is at least `N`. -/
theorem cycleLoopHeap_frame (rnd : Nat → Nat) (bankRef count N : Nat) :
    ∀ (fuel k : Nat) (result : List String) (availRef : Nat) (σ : Store),
      N ≤ availRef → N ≤ σ.cells.length →
      ((cycleLoopHeap rnd bankRef count fuel k result availRef σ).2).cells.take N
        = σ.cells.take N := by
  intro fuel
  induction fuel with
  | zero => intro k result availRef σ _ _; rfl
  | succ f ih =>
    intro k result availRef σ href hlen
    by_cases hg : count ≤ result.length
    · simp only [cycleLoopHeap, if_pos hg]
    · simp only [cycleLoopHeap]
      rw [if_neg hg]
      by_cases he : (σ.get availRef).isEmpty = true
      · rw [if_pos he, if_pos he]
        split
        · show ((σ.alloc (σ.get bankRef)).1).cells.take N = σ.cells.take N
          exact List.take_append_of_le_length hlen
        · rename_i a as heq
          have h1 : N ≤ (σ.alloc (σ.get bankRef)).2 := hlen
          have h2 : N ≤ (((σ.alloc (σ.get bankRef)).1).set
              ((σ.alloc (σ.get bankRef)).2)
              ((a :: as).erase
                ((a :: as).getD (rnd k % (a :: as).length) ""))).cells.length := by
            show N ≤ (((σ.alloc (σ.get bankRef)).1).cells.set _ _).length
            rw [List.length_set]
            show N ≤ (σ.cells ++ [σ.get bankRef]).length
            rw [List.length_append]
            omega
          rw [ih (k + 1) _ _ _ h1 h2]
          show (((σ.alloc (σ.get bankRef)).1).cells.set
            ((σ.alloc (σ.get bankRef)).2) _).take N = σ.cells.take N
          rw [take_set_of_le _ _ _ _ h1]
          exact List.take_append_of_le_length hlen
      · rw [if_neg he, if_neg he]
        split
        · rfl
        · rename_i a as heq
          have h2 : N ≤ (σ.set availRef
              ((a :: as).erase
                ((a :: as).getD (rnd k % (a :: as).length) ""))).cells.length := by
            show N ≤ (σ.cells.set _ _).length
            rw [List.length_set]
            exact hlen
          rw [ih (k + 1) _ _ _ href h2]
          show (σ.cells.set availRef _).take N = σ.cells.take N
          exact take_set_of_le _ _ _ _ href

/-! ### Claim theorems -/

/-- Claim C7: the classifier lower-cases the message, returns
`drawing_progress` on any drawing keyword, else `guessing` on any guessing
keyword, else `general`, with the drawing rule checked first; the three
example messages classify as stated. -/
theorem C7_classifier_rule :
    classify "let\x27s draw a sketch" = "drawing_progress" ∧
    classify "what is this, I think it\x27s..." = "guessing" ∧
    classify "hello there" = "general" ∧
    (∀ m : String, anyKeywordIn drawingKeywords m = true →
      classify m = "drawing_progress") ∧
    (∀ m : String, anyKeywordIn drawingKeywords m = false →
      anyKeywordIn guessingKeywords m = true →
      classify m = "guessing") ∧
    (∀ m : String, anyKeywordIn drawingKeywords m = false →
      anyKeywordIn guessingKeywords m = false →
      classify m = "general") := by
  refine ⟨by decide, by decide, by decide, ?_, ?_, ?_⟩
  · intro m h; simp [classify, h]
  · intro m h1 h2; simp [classify, h1, h2]
  · intro m h1 h2; simp [classify, h1, h2]

/-- Witness for C7: the three generic rules applied at concrete messages. -/
theorem C7_witness :
    classify "sketch time" = "drawing_progress" ∧
    classify "i guess so" = "guessing" ∧
    classify "nice" = "general" := by
  obtain ⟨-, -, -, h4, h5, h6⟩ := C7_classifier_rule
  exact ⟨h4 _ (by decide), h5 _ (by decide) (by decide), h6 _ (by decide) (by decide)⟩

/-- Claim C9: the fallback funny response applies exactly the first matching
augmentation, in the order long guess, one-letter guess, case-insensitive
overlap, unmodified template, and the four example compositions behave as
stated. -/
theorem C9_compose_priority (r : Nat) :
    (∀ guess correct : String, 10 < guess.length →
      fallbackFunnyResponse r guess correct = baseTemplate r ++ longGuessSuffix) ∧
    (∀ guess correct : String, guess.length ≤ 10 → guess.length = 1 →
      fallbackFunnyResponse r guess correct = baseTemplate r ++ oneLetterSuffix) ∧
    (∀ guess correct : String, guess.length ≤ 10 → guess.length ≠ 1 →
      containsCI correct guess = true →
      fallbackFunnyResponse r guess correct = baseTemplate r ++ overlapSuffix) ∧
    (∀ guess correct : String, guess.length ≤ 10 → guess.length ≠ 1 →
      containsCI correct guess = false →
      fallbackFunnyResponse r guess correct = baseTemplate r) ∧
    fallbackFunnyResponse r "a" "elephant" = baseTemplate r ++ oneLetterSuffix ∧
    fallbackFunnyResponse r "elephantine" "elephant" = baseTemplate r ++ longGuessSuffix ∧
    fallbackFunnyResponse r "ele" "elephant" = baseTemplate r ++ overlapSuffix ∧
    fallbackFunnyResponse r "cat" "elephant" = baseTemplate r := by
  have gen1 : ∀ guess correct : String, 10 < guess.length →
      fallbackFunnyResponse r guess correct = baseTemplate r ++ longGuessSuffix := by
    intro g c h
    simp [fallbackFunnyResponse, fallbackFunnyFrom, composeFunny, baseTemplate, h]
  have gen2 : ∀ guess correct : String, guess.length ≤ 10 → guess.length = 1 →
      fallbackFunnyResponse r guess correct = baseTemplate r ++ oneLetterSuffix := by
    intro g c h1 h2
    simp [fallbackFunnyResponse, fallbackFunnyFrom, composeFunny, baseTemplate,
      Nat.not_lt.mpr h1, h2]
  have gen3 : ∀ guess correct : String, guess.length ≤ 10 → guess.length ≠ 1 →
      containsCI correct guess = true →
      fallbackFunnyResponse r guess correct = baseTemplate r ++ overlapSuffix := by
    intro g c h1 h2 h3
    have h3s : isSubstring (lowerList g) (lowerList c) = true := h3
    simp [fallbackFunnyResponse, fallbackFunnyFrom, composeFunny, baseTemplate,
      Nat.not_lt.mpr h1, h2, h3s]
  have gen4 : ∀ guess correct : String, guess.length ≤ 10 → guess.length ≠ 1 →
      containsCI correct guess = false →
      fallbackFunnyResponse r guess correct = baseTemplate r := by
    intro g c h1 h2 h3
    have h3s : isSubstring (lowerList g) (lowerList c) = false := h3
    simp [fallbackFunnyResponse, fallbackFunnyFrom, composeFunny, baseTemplate,
      Nat.not_lt.mpr h1, h2, h3s]
  refine ⟨gen1, gen2, gen3, gen4, ?_, ?_, ?_, ?_⟩
  · exact gen2 "a" "elephant" (by decide) (by decide)
  · exact gen1 "elephantine" "elephant" (by decide)
  · exact gen3 "ele" "elephant" (by decide) (by decide) (by decide)
  · exact gen4 "cat" "elephant" (by decide) (by decide) (by decide)

/-- Witness for C9: all four augmentation rules applied at concrete inputs. -/
theorem C9_witness :
    fallbackFunnyResponse 2 "abcdefghijk" "pear" = baseTemplate 2 ++ longGuessSuffix ∧
    fallbackFunnyResponse 2 "a" "pear" = baseTemplate 2 ++ oneLetterSuffix ∧
    fallbackFunnyResponse 2 "pea" "pear" = baseTemplate 2 ++ overlapSuffix ∧
    fallbackFunnyResponse 2 "dog" "pear" = baseTemplate 2 := by
  obtain ⟨g1, g2, g3, g4, -⟩ := C9_compose_priority 2
  exact ⟨g1 _ _ (by decide), g2 _ _ (by decide) (by decide),
    g3 _ _ (by decide) (by decide) (by decide),
    g4 _ _ (by decide) (by decide) (by decide)⟩

/-- Claim C2 counterexample: with `correct_word = "close"` and the first
template drawn, the fallback funny response contains the correct word as a
case-insensitive substring — the template itself reveals it. -/
theorem C2_counterexample :
    containsCI (fallbackFunnyResponse 0 "hi" "close") "close" = true := by decide

/-- Claim C2 (amended): the fallback funny response is always one of the 40
fixed template/suffix combinations, so it avoids the correct word exactly
when the correct word occurs in none of those fixed strings. -/
theorem C2_no_reveal_outside_templates (r : Nat) (guess correct : String)
    (h : fallbackFunnyOutcomes.all (fun s => !(containsCI s correct)) = true) :
    containsCI (fallbackFunnyResponse r guess correct) correct = false := by
  have hbase : baseTemplate r ∈ funny_responses :=
    getD_mem_of_lt _ _ _ (Nat.mod_lt _ (by decide))
  have hform : ∀ b g c : String,
      composeFunny b g c ∈ [b, b ++ longGuessSuffix, b ++ oneLetterSuffix,
        b ++ overlapSuffix] := by
    intro b g c
    unfold composeFunny
    split
    · simp
    · split
      · simp
      · split
        · simp
        · simp
  have hmem : fallbackFunnyResponse r guess correct ∈ fallbackFunnyOutcomes := by
    rw [fallbackFunnyOutcomes, List.mem_flatMap]
    exact ⟨baseTemplate r, hbase, hform (baseTemplate r) guess correct⟩
  have hall := List.all_eq_true.mp h _ hmem
  simpa using hall

/-- Witness for C2 (amended): no reveal for the correct word "zebra", which
occurs in no template/suffix combination. -/
theorem C2_witness :
    containsCI (fallbackFunnyResponse 0 "hi" "zebra") "zebra" = false :=
  C2_no_reveal_outside_templates 0 "hi" "zebra" (by decide)

/-- Claim C3 counterexample: for the unrecognized mood "excited" and the
message "draw something" (classified as drawing progress) the selection is
not the same as for mood "encouraging" with the same draw, and the returned
string is not drawn from the encouraging list for the classified context. -/
theorem C3_counterexample :
    (fallbackSuggestion 0 "draw something" "excited"
      == fallbackSuggestion 0 "draw something" "encouraging") = false ∧
    (tableLookup encouragingResponses (classify "draw something")).contains
      (fallbackSuggestion 0 "draw something" "excited") = false := by
  constructor <;> decide

/-- Claim C3 (amended): for every message and every mood outside the
recognized set, the selection draws from the encouraging response list for
the fixed context general, ignoring the message classification. -/
theorem C3_unrecognized_mood_uses_general (r : Nat) (message mood : String)
    (h1 : (mood == "encouraging") = false) (h2 : (mood == "curious") = false)
    (h3 : (mood == "playful") = false) :
    fallbackSuggestion r message mood
      = randomChoice r (tableLookup encouragingResponses "general") := by
  simp [fallbackSuggestion, h1, h2, h3]

/-- Witness for C3 (amended): concrete unrecognized mood. -/
theorem C3_witness :
    fallbackSuggestion 5 "guess what" "silly"
      = randomChoice 5 (tableLookup encouragingResponses "general") :=
  C3_unrecognized_mood_uses_general 5 "guess what" "silly" (by decide) (by decide)
    (by decide)

/-- Claim C5: for a topic present in the bank and a count at most the pool
size, the fallback of `generate_multiple_words` takes the `random.sample`
branch and returns exactly `count` pairwise-distinct members of the pool. -/
theorem C5_sample_within_pool (rnd : Nat → Nat) (topic : String)
    (ws : List String) (count fuel : Nat) (hfind : bankLookup topic = some ws)
    (hcount : count ≤ ws.length) :
    generateMultipleWordsFallback rnd topic count fuel
      = SampleOutcome.ok (randomSample rnd 0 count ws) ∧
    (randomSample rnd 0 count ws).length = count ∧
    (randomSample rnd 0 count ws).Nodup ∧
    (∀ w ∈ randomSample rnd 0 count ws, w ∈ ws) := by
  have hpool : resolvePool topic = ws := by unfold resolvePool; rw [hfind]
  refine ⟨?_, randomSample_length rnd count 0 ws hcount,
    randomSample_nodup rnd count 0 ws (bankLookup_nodup hfind),
    randomSample_subset rnd count 0 ws⟩
  unfold generateMultipleWordsFallback sampleFromPool
  rw [hpool, if_pos hcount]

/-- Witness for C5: three distinct animals from the Animals pool. -/
theorem C5_witness :
    generateMultipleWordsFallback (fun _ => 0) "Animals" 3 0
      = SampleOutcome.ok (randomSample (fun _ => 0) 0 3 animalsWords) ∧
    (randomSample (fun _ => 0) 0 3 animalsWords).length = 3 ∧
    (randomSample (fun _ => 0) 0 3 animalsWords).Nodup := by
  obtain ⟨h1, h2, h3, -⟩ := C5_sample_within_pool (fun _ => 0) "Animals"
    animalsWords 3 0 (by decide) (by decide)
  exact ⟨h1, h2, h3⟩

/-- Claim C6: a topic absent from the bank resolves to the Objects pool, so
the fallback of `generate_multiple_words` behaves identically to the call
with topic Objects for the same random draws. -/
theorem C6_unknown_topic_eq_objects (rnd : Nat → Nat) (topic : String)
    (count fuel : Nat) (h : bankLookup topic = none) :
    generateMultipleWordsFallback rnd topic count fuel
      = generateMultipleWordsFallback rnd "Objects" count fuel := by
  unfold generateMultipleWordsFallback
  have hpool : resolvePool topic = resolvePool "Objects" := by
    unfold resolvePool
    rw [h]
    rfl
  rw [hpool]

/-- Witness for C6: the unknown topic "Plants". -/
theorem C6_witness :
    generateMultipleWordsFallback (fun k => k) "Plants" 4 2
      = generateMultipleWordsFallback (fun k => k) "Objects" 4 2 :=
  C6_unknown_topic_eq_objects (fun k => k) "Plants" 4 2 (by decide)

/-- Claim C1 (code bug): for topic Animals (pool of 22 distinct words) and
`count = 23 > 22`, the cycling fallback of `generate_multiple_words` never
finishes, for every random stream and every iteration bound: after the pool
has been consumed once, every drawn word is already in `result`, so the
`if word not in result` guard blocks every further append, the reset never
helps, and `len(result) < count` stays true forever.  The loop neither
returns nor raises, contradicting the documented exact-count contract. -/
theorem C1_cycling_fallback_diverges (rnd : Nat → Nat) (fuel : Nat) :
    generateMultipleWordsFallback rnd "Animals" 23 fuel
      = SampleOutcome.outOfFuel := by
  have hre : resolvePool "Animals" = animalsWords := by decide
  unfold generateMultipleWordsFallback sampleFromPool
  rw [hre, if_neg (by decide)]
  exact cycleLoop_stuck rnd animalsWords 23 (by decide) (by decide) fuel 0 []
    animalsWords (by simp) (by simp) (fun x hx => hx)

/-- Claim C4 counterexample: on an empty resolved pool with `count = 1`, the
cycling loop immediately reaches `random.choice` on an empty sequence and
raises, rather than returning the empty sequence. -/
theorem C4_counterexample :
    sampleFromPool (fun _ => 0) [] 1 3 = SampleOutcome.indexError ∧
    (sampleFromPool (fun _ => 0) [] 1 3).returnsValue = false := by
  exact ⟨rfl, rfl⟩

/-- Claim C4 (amended): an empty resolved pool yields the empty sequence
only for `count = 0`; with the configured word bank the resolved pool is
never empty, and under it the fallback of `generate_multiple_words` never
raises (for oversized counts it fails to terminate instead, see C1). -/
theorem C4_empty_pool_and_no_raise :
    (∀ (rnd : Nat → Nat) (fuel : Nat),
      sampleFromPool rnd [] 0 fuel = SampleOutcome.ok []) ∧
    (∀ topic : String, 0 < (resolvePool topic).length) ∧
    (∀ (rnd : Nat → Nat) (topic : String) (count fuel : Nat),
      (generateMultipleWordsFallback rnd topic count fuel).raised = false) := by
  refine ⟨fun rnd fuel => rfl, resolvePool_pos,
    fun rnd topic count fuel => ?_⟩
  unfold generateMultipleWordsFallback sampleFromPool
  by_cases hc : count ≤ (resolvePool topic).length
  · rw [if_pos hc]; rfl
  · rw [if_neg hc]
    exact cycleLoop_no_raise rnd (resolvePool topic) count
      (resolvePool_pos topic) fuel 0 [] (resolvePool topic)

/-- Claim C8: for recognized moods the fallback of
`generate_chat_suggestion` returns `min count (moods.length)` suggestions,
and the suggestion at each position is drawn from the response table entry
of the mood requested at that position paired with the message's classified
context, preserving the caller's order. -/
theorem C8_select_many_moods (rnd : Nat → Nat) (message : String)
    (moods : List String) (count : Nat)
    (hmoods : ∀ m ∈ moods, m ∈ recognizedMoods) :
    (generateChatSuggestionFallback rnd message count moods).length
      = min count moods.length ∧
    ∀ j, j < (generateChatSuggestionFallback rnd message count moods).length →
      (generateChatSuggestionFallback rnd message count moods).getD j ""
        ∈ tableLookup (moodTable ((moods.take count).getD j ""))
            (classify message) := by
  have hlen : (generateChatSuggestionFallback rnd message count moods).length
      = (moods.take count).length :=
    chatLoop_length rnd message (moods.take count) 0
  constructor
  · rw [hlen, List.length_take]
  · intro j hj
    exact chatLoop_getD_mem rnd message (moods.take count) 0
      (fun m hm => hmoods m (List.take_subset count moods hm)) j (hlen ▸ hj)

/-- Witness for C8: two recognized moods and a drawing-progress message,
with both output positions checked against their mood's table entry. -/
theorem C8_witness :
    (generateChatSuggestionFallback (fun _ => 0) "draw something" 2
      ["encouraging", "curious"]).length = min 2 2 ∧
    (generateChatSuggestionFallback (fun _ => 0) "draw something" 2
      ["encouraging", "curious"]).getD 0 ""
      ∈ tableLookup (moodTable "encouraging") (classify "draw something") ∧
    (generateChatSuggestionFallback (fun _ => 0) "draw something" 2
      ["encouraging", "curious"]).getD 1 ""
      ∈ tableLookup (moodTable "curious") (classify "draw something") := by
  obtain ⟨hl, hj⟩ := C8_select_many_moods (fun _ => 0) "draw something"
    ["encouraging", "curious"] 2 (by decide)
  refine ⟨hl, ?_, ?_⟩
  · exact hj 0 (by rw [hl]; decide)
  · exact hj 1 (by rw [hl]; decide)

/-- Claim C10: the fallback operations leave every configuration cell of
the store unchanged.  The cycling sampler of `generate_multiple_words`
mutates only the freshly allocated working copy of the pool (first
conjunct: every pre-existing cell keeps its value); the funny-response,
word-suggestion and chat-suggestion fallbacks perform no store write at
all (remaining conjuncts: the store is returned as it was). -/
theorem C10_config_tables_unchanged :
    (∀ (rnd : Nat → Nat) (bankRef count fuel : Nat) (σ : Store),
      ((sampleFromPoolHeap rnd bankRef count fuel σ).2).cells.take
          σ.cells.length = σ.cells) ∧
    (∀ (r : Nat) (guess correct : String) (funnyRef : Nat) (σ : Store),
      (generateFunnyFallbackHeap r guess correct funnyRef σ).2 = σ) ∧
    (∀ (r1 r2 : Nat) (topic : Option String) (σ : Store),
      (generateWordSuggestionHeap r1 r2 topic σ).2 = σ) ∧
    (∀ (rnd : Nat → Nat) (message : String) (count : Nat)
        (moods : List String) (σ : Store),
      (generateChatSuggestionHeap rnd message count moods σ).2 = σ) := by
  refine ⟨?_, fun _ _ _ _ _ => rfl, fun _ _ _ _ => rfl, fun _ _ _ _ _ => rfl⟩
  intro rnd bankRef count fuel σ
  unfold sampleFromPoolHeap
  by_cases hc : count ≤ (σ.get bankRef).length
  · rw [if_pos hc]
    exact List.take_length σ.cells
  · rw [if_neg hc]
    have h1 : σ.cells.length ≤ (σ.alloc (σ.get bankRef)).2 := Nat.le_refl _
    have h2 : σ.cells.length ≤ ((σ.alloc (σ.get bankRef)).1).cells.length := by
      show σ.cells.length ≤ (σ.cells ++ [σ.get bankRef]).length
      rw [List.length_append]
      omega
    rw [cycleLoopHeap_frame rnd bankRef count σ.cells.length fuel 0 [] _ _ h1 h2]
    show (σ.cells ++ [σ.get bankRef]).take σ.cells.length = σ.cells
    rw [List.take_append_of_le_length (Nat.le_refl _)]
    exact List.take_length σ.cells

end Drawsy
